import Mathlib

/-!
# PaX flag module (`scripts/paxmodule.c`)

A shallow embedding of the flag codec (`string2bin`, `bin2string`), the two
storage backends (`get_pt_flags` / `set_pt_flags` over the ELF program header
table, `get_xt_flags` / `set_xt_flags` over the `user.pax.flags` extended
attribute) and the three module entry points (`pax_getflags`,
`pax_setbinflags`, `pax_setstrflags`).

Conventions of the embedding:

* `uint16_t` values are `Nat`; a conversion to `uint16_t` is written `% 65536`.
* a `char` buffer is a `List Char`; `buf[i]` is `buf.getD i NUL`, a store to
  `buf[i]` is `buf.set i c`.
* the calls into libelf and the xattr system calls act on a `File` record that
  holds what those calls observe and change.
* `PyErr_SetString (PaxError, msg)` is the `err` component `some msg` of a
  result; `none` means that no error was set by the call.
* the preprocessor switches `PTPAX` / `XTPAX` are the value of `Backends`.
-/

namespace Pax

/-! ## Constants -/

def PT_PAX_FLAGS : Nat := 0x65041580
def PF_PAGEEXEC : Nat := 1 <<< 4
def PF_NOPAGEEXEC : Nat := 1 <<< 5
def PF_SEGMEXEC : Nat := 1 <<< 6
def PF_NOSEGMEXEC : Nat := 1 <<< 7
def PF_MPROTECT : Nat := 1 <<< 8
def PF_NOMPROTECT : Nat := 1 <<< 9
def PF_RANDEXEC : Nat := 1 <<< 10
def PF_NORANDEXEC : Nat := 1 <<< 11
def PF_EMUTRAMP : Nat := 1 <<< 12
def PF_NOEMUTRAMP : Nat := 1 <<< 13
def PF_RANDMMAP : Nat := 1 <<< 14
def PF_NORANDMMAP : Nat := 1 <<< 15

def UINT16_MAX : Nat := 65535
def FLAGS_SIZE : Nat := 6

/-- The terminating byte of a C string. -/
def NUL : Char := Char.ofNat 0

/-- Result of `memset(buf, 0, FLAGS_SIZE)` on a `char buf[FLAGS_SIZE]`. -/
def zeroed : List Char := List.replicate FLAGS_SIZE NUL

/-- Number of bytes before the first NUL. -/
def strlen (buf : List Char) : Nat := (buf.takeWhile (fun c => c != NUL)).length

/-- The text a C string denotes (what the `s` format of `Py_BuildValue` copies). -/
def cstring (buf : List Char) : String := String.mk (buf.takeWhile (fun c => c != NUL))

/-! ## Codec -/

/-- Embedding of `string2bin`: text to flag bits. -/
def string2bin (buf : List Char) : Nat :=
  let flags := 0
  let flags :=
    if buf.getD 0 NUL = 'P' then flags ||| PF_PAGEEXEC
    else if buf.getD 0 NUL = 'p' then flags ||| PF_NOPAGEEXEC
    else flags
  let flags :=
    if buf.getD 1 NUL = 'S' then flags ||| PF_SEGMEXEC
    else if buf.getD 1 NUL = 's' then flags ||| PF_NOSEGMEXEC
    else flags
  let flags :=
    if buf.getD 2 NUL = 'M' then flags ||| PF_MPROTECT
    else if buf.getD 2 NUL = 'm' then flags ||| PF_NOMPROTECT
    else flags
  let flags :=
    if buf.getD 3 NUL = 'E' then flags ||| PF_EMUTRAMP
    else if buf.getD 3 NUL = 'e' then flags ||| PF_NOEMUTRAMP
    else flags
  let flags :=
    if buf.getD 4 NUL = 'R' then flags ||| PF_RANDMMAP
    else if buf.getD 4 NUL = 'r' then flags ||| PF_NORANDMMAP
    else flags
  flags

/-- Embedding of `bin2string`: stores the five symbols of `flags` into
`buf[0..4]` and leaves the rest of `buf` as it was. -/
def bin2string (flags : Nat) (buf : List Char) : List Char :=
  let buf := buf.set 0
    (if flags &&& PF_PAGEEXEC ≠ 0 then 'P'
     else if flags &&& PF_NOPAGEEXEC ≠ 0 then 'p' else '-')
  let buf := buf.set 1
    (if flags &&& PF_SEGMEXEC ≠ 0 then 'S'
     else if flags &&& PF_NOSEGMEXEC ≠ 0 then 's' else '-')
  let buf := buf.set 2
    (if flags &&& PF_MPROTECT ≠ 0 then 'M'
     else if flags &&& PF_NOMPROTECT ≠ 0 then 'm' else '-')
  let buf := buf.set 3
    (if flags &&& PF_EMUTRAMP ≠ 0 then 'E'
     else if flags &&& PF_NOEMUTRAMP ≠ 0 then 'e' else '-')
  let buf := buf.set 4
    (if flags &&& PF_RANDMMAP ≠ 0 then 'R'
     else if flags &&& PF_NORANDMMAP ≠ 0 then 'r' else '-')
  buf

/-- A text of exactly five symbols, the one at each position being the enable
letter, the disable letter or `-` of that position. -/
def ValidText (T : List Char) : Prop :=
  T.length = 5 ∧
  T.getD 0 NUL ∈ ['P', 'p', '-'] ∧
  T.getD 1 NUL ∈ ['S', 's', '-'] ∧
  T.getD 2 NUL ∈ ['M', 'm', '-'] ∧
  T.getD 3 NUL ∈ ['E', 'e', '-'] ∧
  T.getD 4 NUL ∈ ['R', 'r', '-']

instance (T : List Char) : Decidable (ValidText T) := by
  unfold ValidText; infer_instance

/-! ## Storage -/

/-- A program header as `gelf_getphdr` hands it out. -/
structure GElf_Phdr where
  p_type : Nat
  p_flags : Nat
  p_offset : Nat
  p_vaddr : Nat
  p_paddr : Nat
  p_filesz : Nat
  p_memsz : Nat
  p_align : Nat
deriving DecidableEq, Repr

/-- What the library and system calls made on an open descriptor observe and
change.

* `elf_version_ok`: `elf_version(EV_CURRENT)` is not `EV_NONE`;
* `elf_begin_ok`: `elf_begin` returns a handle;
* `kind_is_elf`: `elf_kind` is `ELF_K_ELF`;
* `phdrs`: the program header table, as the file holds it when a handle is
  opened on it;
* `getphdr_bad`: the indices at which `gelf_getphdr` fails (libelf loads the
  table as a whole, so on a real file the call fails at every index or at none);
* `update_bad`: the indices at which `gelf_update_phdr` fails;
* `xattr`: the value of `user.pax.flags`, `none` when the attribute is not set;
* `fsetxattr_fails`: `fsetxattr` returns `-1` and stores nothing;
* `table_mapped`: the table a handle works on is the mapped bytes of the file
  (the file has the byte order of the host), so an entry committed into it is
  in the file; when `false` the handle works on a converted copy of the table,
  which only `elf_update` would write back and which `elf_end` discards. -/
structure File where
  elf_version_ok : Bool
  elf_begin_ok : Bool
  kind_is_elf : Bool
  phdrs : List GElf_Phdr
  getphdr_bad : List Nat
  update_bad : List Nat
  xattr : Option (List Char)
  fsetxattr_fails : Bool
  table_mapped : Bool
deriving DecidableEq, Repr

/-- The count `elf_getphdrnum` stores into `phnum`. -/
def elf_getphdrnum (f : File) : Nat := f.phdrs.length

/-- The entry `gelf_getphdr(elf, i, &phdr)` copies out; `none` when the call
does not return `&phdr`. -/
def gelf_getphdr (f : File) (i : Nat) : Option GElf_Phdr :=
  if i ∈ f.getphdr_bad then none else f.phdrs[i]?

/-- The handle after `gelf_update_phdr(elf, i, &phdr)`; `none` when the call
returns 0. A handle is the record of the file it was opened on in which `phdrs`
is the table the handle works on: the call stores the entry into that table,
where a later `gelf_getphdr` on the same handle reads it. What the file holds
afterwards is decided by `elf_end`. -/
def gelf_update_phdr (elf : File) (i : Nat) (phdr : GElf_Phdr) : Option File :=
  if i ∈ elf.update_bad ∨ elf.phdrs.length ≤ i then none
  else some { elf with phdrs := elf.phdrs.set i phdr }

/-- The file after `elf_end(elf)` on a handle `elf` opened on `f`, with no
`elf_update` before it: the table of the handle is the table of the file when
the handle works on the mapped bytes, and is dropped when it works on a copy. -/
def elf_end (f : File) (elf : File) : File :=
  if f.table_mapped then elf else f

/-- The call `fgetxattr(fd, PAX_NAMESPACE, buf, size)`: the buffer afterwards
and the return value (`-1` when the attribute is not set or does not fit). -/
def fgetxattr (f : File) (buf : List Char) (size : Nat) : List Char × Int :=
  match f.xattr with
  | none => (buf, -1)
  | some v =>
    if v.length ≤ size then (v ++ buf.drop v.length, (v.length : Int))
    else (buf, -1)

/-- The call `fsetxattr(fd, PAX_NAMESPACE, value, size, 0)`: the file
afterwards and the return value. -/
def fsetxattr (f : File) (value : List Char) (size : Nat) : File × Int :=
  if f.fsetxattr_fails then (f, -1)
  else ({ f with xattr := some (value.take size) }, 0)

/-! ## Header backend -/

/-- The `for` loop of `get_pt_flags`, `n` iterations left, at index `i`. -/
def get_pt_loop (f : File) : Nat → Nat → Nat → Nat × Option String
  | 0, _, pt_flags => (pt_flags, none)
  | n + 1, i, pt_flags =>
    match gelf_getphdr f i with
    | none =>
      (pt_flags, some "get_pt_flags: gelf_getphdr() failed: could not get phdr.")
    | some phdr =>
      if phdr.p_type = PT_PAX_FLAGS then
        get_pt_loop f n (i + 1) (phdr.p_flags % 65536)
      else
        get_pt_loop f n (i + 1) pt_flags

/-- Embedding of `get_pt_flags`: the returned `uint16_t` and the error set. -/
def get_pt_flags (f : File) : Nat × Option String :=
  let pt_flags := UINT16_MAX
  if f.elf_version_ok = false then
    (pt_flags, some "get_pt_flags: library out of date")
  else if f.elf_begin_ok = false then
    (pt_flags, some "get_pt_flags: elf_begin() failed")
  else if f.kind_is_elf = false then
    (pt_flags, some "get_pt_flags: elf_kind() failed: this is not an elf file.")
  else
    get_pt_loop f (elf_getphdrnum f) 0 pt_flags

/-- The `for` loop of `set_pt_flags`, `n` iterations left, at index `i`, on
the handle `elf`: the handle when the loop is left and the error set. Each way
out of the loop is followed by `elf_end(elf)`, which `set_pt_flags` applies. -/
def set_pt_loop (pt_flags : Nat) : Nat → Nat → File → File × Option String
  | 0, _, elf => (elf, none)
  | n + 1, i, elf =>
    match gelf_getphdr elf i with
    | none => (elf, some "set_pt_flags: gelf_getphdr() failed")
    | some phdr =>
      if phdr.p_type = PT_PAX_FLAGS then
        let phdr := { phdr with p_flags := pt_flags }
        match gelf_update_phdr elf i phdr with
        | none => (elf, some "set_pt_flags: gelf_update_phdr() failed")
        | some elf => set_pt_loop pt_flags n (i + 1) elf
      else
        set_pt_loop pt_flags n (i + 1) elf

/-- Embedding of `set_pt_flags`: the file afterwards and the error set. The
handle is opened on `f`, the loop runs on it, and `elf_end` closes it; the
source calls no `elf_update`. -/
def set_pt_flags (f : File) (pt_flags : Nat) : File × Option String :=
  if f.elf_version_ok = false then
    (f, some "set_pt_flags: library out of date")
  else if f.elf_begin_ok = false then
    (f, some "set_pt_flags: elf_begin() failed")
  else if f.kind_is_elf = false then
    (f, some "set_pt_flags: elf_kind() failed: this is not an elf file.")
  else
    let r := set_pt_loop pt_flags (elf_getphdrnum f) 0 f
    (elf_end f r.1, r.2)

/-! ## Attribute backend -/

/-- Embedding of `get_xt_flags`. -/
def get_xt_flags (f : File) : Nat :=
  let xt_flags := UINT16_MAX
  let buf := zeroed
  let r := fgetxattr f buf FLAGS_SIZE
  if r.2 ≠ -1 then string2bin r.1 else xt_flags

/-- Embedding of `set_xt_flags`: the file afterwards. The function is `void`,
sets no error and drops the return value of `fsetxattr`. -/
def set_xt_flags (f : File) (xt_flags : Nat) : File :=
  let buf := zeroed
  let buf := bin2string xt_flags buf
  (fsetxattr f buf (strlen buf)).1

/-! ## Module entry points -/

/-- The backends compiled in. -/
inductive Backends where
  | ptpax
  | xtpax
  | both
deriving DecidableEq, Repr

def Backends.PTPAX : Backends → Bool
  | .ptpax => true
  | .xtpax => false
  | .both => true

def Backends.XTPAX : Backends → Bool
  | .ptpax => false
  | .xtpax => true
  | .both => true

/-- What an entry point hands back to the interpreter: `ret` is the returned
object (`none` for `NULL`), `err` the error left set. -/
structure PyResult (α : Type) where
  ret : Option α
  err : Option String
deriving DecidableEq, Repr

/-- Embedding of `pax_getflags` after argument parsing. `file` is what
`open(f_name, O_RDONLY)` gives, `none` when it fails. The returned object is
the pair built by `Py_BuildValue("si", buf, flags)`. -/
def pax_getflags (cfg : Backends) (file : Option File) : PyResult (String × Nat) :=
  let buf := zeroed
  match file with
  | none => ⟨none, some "pax_getflags: open() failed"⟩
  | some f =>
    match cfg with
    | .ptpax =>
      let r := get_pt_flags f
      let flags := r.1
      let buf := if flags ≠ UINT16_MAX then bin2string flags zeroed else buf
      ⟨some (cstring buf, flags), r.2⟩
    | .xtpax =>
      let flags := get_xt_flags f
      let buf := if flags ≠ UINT16_MAX then bin2string flags zeroed else buf
      ⟨some (cstring buf, flags), none⟩
    | .both =>
      let r := get_pt_flags f
      let flags := r.1
      let buf := if flags ≠ UINT16_MAX then bin2string flags zeroed else buf
      let flags := get_xt_flags f
      let buf := if flags ≠ UINT16_MAX then bin2string flags zeroed else buf
      ⟨some (cstring buf, flags), r.2⟩

/-- The part shared by `pax_setbinflags` and `pax_setstrflags` after `flags`
is computed: the enabled write paths in source order. -/
def set_backends (cfg : Backends) (f : File) (flags : Nat) : File × Option String :=
  match cfg with
  | .ptpax => set_pt_flags f flags
  | .xtpax => (set_xt_flags f flags, none)
  | .both =>
    let r := set_pt_flags f flags
    (set_xt_flags r.1 flags, r.2)

/-- Embedding of `pax_setbinflags` after argument parsing: the result handed
back (`Py_BuildValue("")` is `some ()`) and the file afterwards. -/
def pax_setbinflags (cfg : Backends) (file : Option File) (iflags : Int) :
    PyResult Unit × Option File :=
  match file with
  | none => (⟨none, some "pax_setbinflags: open() failed"⟩, none)
  | some f =>
    let flags := (iflags % 65536).toNat
    let r := set_backends cfg f flags
    (⟨some (), r.2⟩, some r.1)

/-- Embedding of `pax_setstrflags` after argument parsing. -/
def pax_setstrflags (cfg : Backends) (file : Option File) (sflags : List Char) :
    PyResult Unit × Option File :=
  match file with
  | none => (⟨none, some "pax_setbinflags: open() failed"⟩, none)
  | some f =>
    let flags := string2bin sflags
    let r := set_backends cfg f flags
    (⟨some (), r.2⟩, some r.1)

/-- The last entry of a table whose type is `PT_PAX_FLAGS`. -/
def lastPax (phdrs : List GElf_Phdr) : Option GElf_Phdr :=
  (phdrs.filter (fun p => p.p_type = PT_PAX_FLAGS)).getLast?

/-- A marker entry carrying `flags`. -/
def paxPhdr (flags : Nat) : GElf_Phdr :=
  ⟨PT_PAX_FLAGS, flags, 0, 0, 0, 0, 0, 4⟩

/-- A loadable segment (`PT_LOAD`). -/
def loadPhdr : GElf_Phdr :=
  ⟨1, 5, 0, 0x400000, 0x400000, 0x1000, 0x1000, 0x1000⟩

/-- A file on which every call succeeds: an ELF object in the byte order of
the host with the given table and the given attribute value. -/
def goodFile (phdrs : List GElf_Phdr) (xattr : Option (List Char)) : File :=
  ⟨true, true, true, phdrs, [], [], xattr, false, true⟩

/-- An ELF object in the other byte order than the host, with two marker
entries and no attribute: every call on it succeeds, and a handle on it works
on a converted copy of the table. -/
def otherEndianFile : File :=
  ⟨true, true, true, [loadPhdr, paxPhdr 0, paxPhdr 7], [], [], none, false, false⟩

/-- The flags, as a `uint16_t`, of the last marker entry of a table, `dflt`
when the table has no marker entry. -/
def lastPaxFlags (phdrs : List GElf_Phdr) (dflt : Nat) : Nat :=
  match lastPax phdrs with
  | some p => p.p_flags % 65536
  | none => dflt

/-- The header read path meets no failure: the library is usable, the file is
an ELF object, and `gelf_getphdr` fails at no index of the table. -/
def ReadsClean (f : File) : Prop :=
  f.elf_version_ok = true ∧ f.elf_begin_ok = true ∧ f.kind_is_elf = true ∧
    ∀ i ∈ f.getphdr_bad, f.phdrs.length ≤ i

instance (f : File) : Decidable (ReadsClean f) := by
  unfold ReadsClean; infer_instance

/-- What the write path stores into one table slot: a marker entry gets the
new flags, any other entry is kept. -/
def patch (pt_flags : Nat) (p : GElf_Phdr) : GElf_Phdr :=
  if p.p_type = PT_PAX_FLAGS then { p with p_flags := pt_flags } else p

/-- An ELF object whose marker entry says `P----` while its attribute says
`p----`. -/
def conflictFile : File :=
  goodFile [loadPhdr, paxPhdr 0x10] (some ['p', '-', '-', '-', '-'])

/-- An ELF object with no marker entry and no attribute. -/
def absentFile : File := goodFile [loadPhdr] none

/-- An ELF object whose marker entry says `P----` and which has no attribute. -/
def headerOnlyFile : File := goodFile [loadPhdr, paxPhdr 0x10] none

/-- An ELF object on a file system that refuses to store attributes. -/
def noXattrFile : File :=
  ⟨true, true, true, [loadPhdr, paxPhdr 0], [], [], none, true, true⟩

/-- An ELF object whose header announces two program headers and whose table
cannot be loaded, for instance because it lies beyond the end of the file:
`gelf_getphdr` fails at every index, the first time at index 0. -/
def unreadableTableFile : File :=
  ⟨true, true, true, [paxPhdr 0x8010, loadPhdr], [0, 1], [], none, false, true⟩

/-- Every enabled backend reports absence: no attribute, and a header table
that is read with no failure and has no marker entry. -/
def ReportsAbsence (cfg : Backends) (f : File) : Prop :=
  (cfg.PTPAX = true → ReadsClean f ∧ lastPax f.phdrs = none) ∧
  (cfg.XTPAX = true → f.xattr = none)

instance (cfg : Backends) (f : File) : Decidable (ReportsAbsence cfg f) := by
  unfold ReportsAbsence; infer_instance

/-- Every enabled backend accepts a write: for the header backend the library
is usable, the file is an ELF object, no fetch and no update of a table entry
fails and the table has a marker entry; for the attribute backend `fsetxattr`
succeeds. -/
def AcceptsWrite (cfg : Backends) (f : File) : Prop :=
  (cfg.PTPAX = true →
    ReadsClean f ∧ (∀ i ∈ f.update_bad, f.phdrs.length ≤ i) ∧ lastPax f.phdrs ≠ none) ∧
  (cfg.XTPAX = true → f.fsetxattr_fails = false)

instance (cfg : Backends) (f : File) : Decidable (AcceptsWrite cfg f) := by
  unfold AcceptsWrite; infer_instance

/-- Every enabled backend accepts a write and, when the header backend is the
only backend enabled, the table a handle works on is the mapped bytes of the
file. -/
def CanStore (cfg : Backends) (f : File) : Prop :=
  AcceptsWrite cfg f ∧ (cfg.XTPAX = false → f.table_mapped = true)

instance (cfg : Backends) (f : File) : Decidable (CanStore cfg f) := by
  unfold CanStore; infer_instance

/-! ## Codec: proofs -/

/-- A valid text is a list of five symbols, each from its own alphabet. -/
theorem validText_shape {T : List Char} (h : ValidText T) :
    ∃ a b c d e, T = [a, b, c, d, e] ∧
      (a = 'P' ∨ a = 'p' ∨ a = '-') ∧ (b = 'S' ∨ b = 's' ∨ b = '-') ∧
      (c = 'M' ∨ c = 'm' ∨ c = '-') ∧ (d = 'E' ∨ d = 'e' ∨ d = '-') ∧
      (e = 'R' ∨ e = 'r' ∨ e = '-') := by
  obtain ⟨hl, h0, h1, h2, h3, h4⟩ := h
  match T, hl with
  | [a, b, c, d, e], _ =>
    refine ⟨a, b, c, d, e, rfl, ?_, ?_, ?_, ?_, ?_⟩
    · simpa using h0
    · simpa using h1
    · simpa using h2
    · simpa using h3
    · simpa using h4

/-- The five bytes `bin2string` stores do not depend on what the buffer held. -/
theorem bin2string_take (F : Nat) (buf : List Char) (h : 5 ≤ buf.length) :
    (bin2string F buf).take 5 = bin2string F (List.replicate 5 NUL) := by
  match buf, h with
  | _ :: _ :: _ :: _ :: _ :: _, _ => simp [bin2string, List.replicate]

/-- Encoding after decoding, on a five-byte buffer. -/
theorem roundtrip_five {T : List Char} (h : ValidText T) :
    bin2string (string2bin T) (List.replicate 5 NUL) = T := by
  obtain ⟨a, b, c, d, e, rfl, ha, hb, hc, hd, he⟩ := validText_shape h
  rcases ha with rfl | rfl | rfl <;> rcases hb with rfl | rfl | rfl <;>
    rcases hc with rfl | rfl | rfl <;> rcases hd with rfl | rfl | rfl <;>
    rcases he with rfl | rfl | rfl <;> decide

/-- Decoding after encoding, for a value that decoding produces. -/
theorem decode_encode {T : List Char} (h : ValidText T) :
    string2bin (bin2string (string2bin T) zeroed) = string2bin T := by
  obtain ⟨a, b, c, d, e, rfl, ha, hb, hc, hd, he⟩ := validText_shape h
  rcases ha with rfl | rfl | rfl <;> rcases hb with rfl | rfl | rfl <;>
    rcases hc with rfl | rfl | rfl <;> rcases hd with rfl | rfl | rfl <;>
    rcases he with rfl | rfl | rfl <;> decide

/-- C1: for every valid five-symbol text `T` and every buffer of at least five
bytes, the first five bytes `bin2string` writes for `string2bin T` are `T`. -/
theorem bin2string_string2bin_roundtrip (T buf : List Char)
    (hT : ValidText T) (hbuf : 5 ≤ buf.length) :
    (bin2string (string2bin T) buf).take 5 = T := by
  rw [bin2string_take _ _ hbuf]
  exact roundtrip_five hT

theorem bin2string_string2bin_roundtrip_witness :
    ValidText ['P', '-', 'm', '-', 'r'] ∧ 5 ≤ zeroed.length ∧
      (bin2string (string2bin ['P', '-', 'm', '-', 'r']) zeroed).take 5 =
        ['P', '-', 'm', '-', 'r'] :=
  ⟨by decide, by decide,
    bin2string_string2bin_roundtrip ['P', '-', 'm', '-', 'r'] zeroed (by decide) (by decide)⟩

/-- One `if / else if` step of `string2bin` adds one of two bits or nothing. -/
theorem ite_lor (c c' : Prop) [Decidable c] [Decidable c'] (x A B : Nat) :
    (if c then x ||| A else if c' then x ||| B else x) =
      x ||| (if c then A else if c' then B else 0) := by
  split_ifs <;> simp

/-- The value of `string2bin` as the union of one contribution per position. -/
theorem string2bin_shape (buf : List Char) :
    string2bin buf =
      0 ||| (if buf.getD 0 NUL = 'P' then PF_PAGEEXEC
             else if buf.getD 0 NUL = 'p' then PF_NOPAGEEXEC else 0)
        ||| (if buf.getD 1 NUL = 'S' then PF_SEGMEXEC
             else if buf.getD 1 NUL = 's' then PF_NOSEGMEXEC else 0)
        ||| (if buf.getD 2 NUL = 'M' then PF_MPROTECT
             else if buf.getD 2 NUL = 'm' then PF_NOMPROTECT else 0)
        ||| (if buf.getD 3 NUL = 'E' then PF_EMUTRAMP
             else if buf.getD 3 NUL = 'e' then PF_NOEMUTRAMP else 0)
        ||| (if buf.getD 4 NUL = 'R' then PF_RANDMMAP
             else if buf.getD 4 NUL = 'r' then PF_NORANDMMAP else 0) := by
  simp only [string2bin, ite_lor]

/-- The value of `string2bin` fits in sixteen bits and is not `UINT16_MAX`. -/
theorem string2bin_lt (buf : List Char) :
    string2bin buf < 65536 ∧ string2bin buf ≠ UINT16_MAX := by
  rw [string2bin_shape]
  split_ifs <;> decide

/-- C9: for a buffer of at least five bytes the value of `string2bin` has, for
each of the five settings, at most one of the enable and disable bits, has none
of the bits 0-3, 10, 11, fits in sixteen bits, and is not `UINT16_MAX`. -/
theorem string2bin_valid (buf : List Char) (_hbuf : 5 ≤ buf.length) :
    ¬ (string2bin buf &&& PF_PAGEEXEC ≠ 0 ∧ string2bin buf &&& PF_NOPAGEEXEC ≠ 0) ∧
    ¬ (string2bin buf &&& PF_SEGMEXEC ≠ 0 ∧ string2bin buf &&& PF_NOSEGMEXEC ≠ 0) ∧
    ¬ (string2bin buf &&& PF_MPROTECT ≠ 0 ∧ string2bin buf &&& PF_NOMPROTECT ≠ 0) ∧
    ¬ (string2bin buf &&& PF_EMUTRAMP ≠ 0 ∧ string2bin buf &&& PF_NOEMUTRAMP ≠ 0) ∧
    ¬ (string2bin buf &&& PF_RANDMMAP ≠ 0 ∧ string2bin buf &&& PF_NORANDMMAP ≠ 0) ∧
    string2bin buf &&& (0xF ||| PF_RANDEXEC ||| PF_NORANDEXEC) = 0 ∧
    string2bin buf < 65536 ∧
    string2bin buf ≠ UINT16_MAX := by
  rw [string2bin_shape]
  split_ifs <;> decide

theorem string2bin_valid_witness :
    5 ≤ ['P', 'x', 'M', 'E', 'r', 'R'].length ∧
      string2bin ['P', 'x', 'M', 'E', 'r', 'R'] ≠ UINT16_MAX :=
  ⟨by decide, (string2bin_valid ['P', 'x', 'M', 'E', 'r', 'R'] (by decide)).2.2.2.2.2.2.2⟩

/-! ## Header read path: proofs -/

theorem lastPaxFlags_nil (dflt : Nat) : lastPaxFlags [] dflt = dflt := by
  simp [lastPaxFlags, lastPax]

theorem lastPaxFlags_cons (p : GElf_Phdr) (rest : List GElf_Phdr) (dflt : Nat) :
    lastPaxFlags (p :: rest) dflt =
      lastPaxFlags rest (if p.p_type = PT_PAX_FLAGS then p.p_flags % 65536 else dflt) := by
  unfold lastPaxFlags lastPax
  by_cases hp : p.p_type = PT_PAX_FLAGS
  · simp only [List.filter_cons, hp, decide_True, if_true]
    cases hr : rest.filter (fun p => decide (p.p_type = PT_PAX_FLAGS)) with
    | nil => simp
    | cons q qs =>
      simp only [List.getLast?_cons_cons]
      rw [List.getLast?_eq_getLast _ (List.cons_ne_nil q qs)]
  · simp [List.filter_cons, hp]

/-- The scan from index `i` to the end of the table, when no fetch fails. -/
theorem get_pt_loop_clean (f : File) (hbad : ∀ i ∈ f.getphdr_bad, f.phdrs.length ≤ i) :
    ∀ (n i acc : Nat), i + n = f.phdrs.length →
      get_pt_loop f n i acc = (lastPaxFlags (f.phdrs.drop i) acc, none) := by
  intro n
  induction n with
  | zero =>
    intro i acc h
    have : f.phdrs.drop i = [] := List.drop_eq_nil_of_le (by omega)
    simp [get_pt_loop, this, lastPaxFlags_nil]
  | succ n ih =>
    intro i acc h
    have hi : i < f.phdrs.length := by omega
    have hnot : i ∉ f.getphdr_bad := fun hm => by have := hbad i hm; omega
    have hget : gelf_getphdr f i = some (f.phdrs[i]) := by
      simp [gelf_getphdr, hnot, List.getElem?_eq_getElem hi]
    have hdrop : f.phdrs.drop i = f.phdrs[i] :: f.phdrs.drop (i + 1) :=
      List.drop_eq_getElem_cons hi
    rw [get_pt_loop, hget, hdrop, lastPaxFlags_cons]
    simp only []
    split_ifs
    · exact ih (i + 1) _ (by omega)
    · exact ih (i + 1) _ (by omega)

/-- The header read path on a file on which nothing fails. -/
theorem get_pt_flags_clean (f : File) (h : ReadsClean f) :
    get_pt_flags f = (lastPaxFlags f.phdrs UINT16_MAX, none) := by
  obtain ⟨hv, hb, hk, hbad⟩ := h
  have := get_pt_loop_clean f hbad f.phdrs.length 0 UINT16_MAX (by simp)
  simpa [get_pt_flags, hv, hb, hk, elf_getphdrnum] using this

/-- C6: when the header read path meets no failure, `get_pt_flags` returns,
with no error set, the flags field taken as a 16-bit value of the last entry
in table order whose type is `PT_PAX_FLAGS`, and `UINT16_MAX` when no entry
has that type. -/
theorem get_pt_flags_last_match (f : File) (h : ReadsClean f) :
    get_pt_flags f =
      (match lastPax f.phdrs with
        | some p => p.p_flags % 65536
        | none => UINT16_MAX, none) := by
  rw [get_pt_flags_clean f h]
  rfl

theorem get_pt_flags_last_match_witness :
    ReadsClean (goodFile [paxPhdr 0x10, loadPhdr, paxPhdr 0x12000] none) ∧
      get_pt_flags (goodFile [paxPhdr 0x10, loadPhdr, paxPhdr 0x12000] none) =
        (0x2000, none) :=
  ⟨by decide,
    get_pt_flags_last_match (goodFile [paxPhdr 0x10, loadPhdr, paxPhdr 0x12000] none)
      (by decide)⟩

/-! ## Header write path: proofs -/

/-- The scan of `set_pt_flags`, when it ends with no error set: only the table
changes, it keeps its length, the slots the scan visits hold the patched entry
and the other slots are as before. -/
theorem set_pt_loop_frame (F : Nat) :
    ∀ (n i : Nat) (f r : File), set_pt_loop F n i f = (r, none) →
      r = { f with phdrs := r.phdrs } ∧ r.phdrs.length = f.phdrs.length ∧
      ∀ j, r.phdrs[j]? =
        if i ≤ j ∧ j < i + n then (f.phdrs[j]?).map (patch F) else f.phdrs[j]? := by
  intro n
  induction n with
  | zero =>
    intro i f r h
    simp only [set_pt_loop, Prod.mk.injEq, and_true] at h
    subst h
    refine ⟨rfl, rfl, fun j => ?_⟩
    rw [if_neg (by omega)]
  | succ n ih =>
    intro i f r h
    rw [set_pt_loop] at h
    cases hg : gelf_getphdr f i with
    | none => simp [hg] at h
    | some phdr =>
      have hphdr : f.phdrs[i]? = some phdr := by
        unfold gelf_getphdr at hg
        split_ifs at hg
        exact hg
      simp only [hg] at h
      by_cases hp : phdr.p_type = PT_PAX_FLAGS
      · rw [if_pos hp] at h
        cases hu : gelf_update_phdr f i { phdr with p_flags := F } with
        | none => simp [hu] at h
        | some f' =>
          simp only [hu] at h
          have hf' : f' = { f with phdrs := f.phdrs.set i { phdr with p_flags := F } } := by
            unfold gelf_update_phdr at hu
            split_ifs at hu
            exact (Option.some.inj hu).symm
          obtain ⟨h1, h2, h3⟩ := ih (i + 1) f' r h
          subst hf'
          refine ⟨?_, ?_, fun j => ?_⟩
          · rw [h1]
          · simpa using h2
          · rw [h3 j]
            simp only [List.getElem?_set]
            by_cases hij : i = j
            · subst hij
              have hlt : i < f.phdrs.length := by
                rcases List.getElem?_eq_some.mp hphdr with ⟨hlt, _⟩
                exact hlt
              have c1 : ¬ (i + 1 ≤ i ∧ i < i + 1 + n) := by omega
              have c2 : i ≤ i ∧ i < i + (n + 1) := by omega
              simp [c1, c2, hlt, hphdr, patch, hp]
            · by_cases c : i + 1 ≤ j ∧ j < i + 1 + n
              · have c2 : i ≤ j ∧ j < i + (n + 1) := by omega
                simp [c, c2, hij]
              · have c2 : ¬ (i ≤ j ∧ j < i + (n + 1)) := by omega
                simp [c, c2, hij]
      · rw [if_neg hp] at h
        obtain ⟨h1, h2, h3⟩ := ih (i + 1) f r h
        refine ⟨h1, h2, fun j => ?_⟩
        rw [h3 j]
        by_cases hij : i = j
        · subst hij
          have c1 : ¬ (i + 1 ≤ i ∧ i < i + 1 + n) := by omega
          have c2 : i ≤ i ∧ i < i + (n + 1) := by omega
          simp [c1, c2, hphdr, patch, hp]
        · by_cases c : i + 1 ≤ j ∧ j < i + 1 + n
          · have c2 : i ≤ j ∧ j < i + (n + 1) := by omega
            simp [c, c2]
          · have c2 : ¬ (i ≤ j ∧ j < i + (n + 1)) := by omega
            simp [c, c2]

/-- The file `set_pt_flags` leaves when it sets no error: the handle ends with
the old table in which every slot is patched, and `elf_end` decides whether the
file holds it. -/
theorem set_pt_flags_result (f r : File) (F : Nat) (h : set_pt_flags f F = (r, none)) :
    r = elf_end f { f with phdrs := f.phdrs.map (patch F) } := by
  unfold set_pt_flags at h
  split_ifs at h
  · simp at h
  · simp at h
  · simp at h
  · simp only [Prod.mk.injEq] at h
    obtain ⟨hr, herr⟩ := h
    obtain ⟨h1, _, h3⟩ := set_pt_loop_frame F _ 0 f
      (set_pt_loop F (elf_getphdrnum f) 0 f).1 (Prod.ext rfl herr)
    have : (set_pt_loop F (elf_getphdrnum f) 0 f).1.phdrs = f.phdrs.map (patch F) := by
      apply List.ext_getElem?
      intro j
      rw [h3 j, List.getElem?_map]
      by_cases c : 0 ≤ j ∧ j < 0 + elf_getphdrnum f
      · rw [if_pos c]
      · have : f.phdrs.length ≤ j := by simp only [elf_getphdrnum] at c; omega
        rw [if_neg c, List.getElem?_eq_none this]
        rfl
    rw [← hr, h1, this]

/-- C2, as stated, fails: on `conflictFile` the header read gives `0x10`, the
attribute read gives `0x20`, and `pax_getflags` with both backends returns the
attribute's `("p----", 0x20)`, not the header's `("P----", 0x10)`. -/
theorem pax_getflags_header_precedence_fails :
    get_pt_flags conflictFile = (0x10, none) ∧ get_xt_flags conflictFile = 0x20 ∧
    pax_getflags .both (some conflictFile) = ⟨some ("p----", 0x20), none⟩ ∧
    cstring (bin2string 0x10 zeroed) = "P----" ∧
    (pax_getflags .both (some conflictFile)).ret ≠
      some (cstring (bin2string 0x10 zeroed), 0x10) := by
  decide

/-- C2, amended: when both backends are enabled, both report a value other
than `UINT16_MAX` and the two values differ, `pax_getflags` returns the
attribute backend's value: the text is its encoding and the integer is it. -/
theorem pax_getflags_attribute_precedence (f : File)
    (_hh : (get_pt_flags f).1 ≠ UINT16_MAX) (hx : get_xt_flags f ≠ UINT16_MAX)
    (_hne : (get_pt_flags f).1 ≠ get_xt_flags f) :
    (pax_getflags .both (some f)).ret =
      some (cstring (bin2string (get_xt_flags f) zeroed), get_xt_flags f) := by
  simp [pax_getflags, hx]

theorem pax_getflags_attribute_precedence_witness :
    (get_pt_flags conflictFile).1 ≠ UINT16_MAX ∧ get_xt_flags conflictFile ≠ UINT16_MAX ∧
    (get_pt_flags conflictFile).1 ≠ get_xt_flags conflictFile ∧
    (pax_getflags .both (some conflictFile)).ret =
      some (cstring (bin2string (get_xt_flags conflictFile) zeroed),
        get_xt_flags conflictFile) :=
  ⟨by decide, by decide, by decide,
    pax_getflags_attribute_precedence conflictFile (by decide) (by decide) (by decide)⟩

/-- C3, as stated, fails: on `absentFile` every backend reports absence and
`pax_getflags` returns the empty text with `UINT16_MAX`, not `-----`. -/
theorem pax_getflags_absence_text_fails :
    ReportsAbsence .both absentFile ∧
    pax_getflags .both (some absentFile) = ⟨some ("", 65535), none⟩ ∧
    (pax_getflags .both (some absentFile)).ret ≠ some ("-----", 65535) := by
  decide

/-- C3, amended: on a file on which every enabled backend reports absence,
`pax_getflags` returns the empty text together with `UINT16_MAX` (65535), and
sets no error. -/
theorem pax_getflags_absence (cfg : Backends) (f : File) (h : ReportsAbsence cfg f) :
    pax_getflags cfg (some f) = ⟨some ("", 65535), none⟩ := by
  obtain ⟨hpt, hxt⟩ := h
  have hx : cfg.XTPAX = true → get_xt_flags f = UINT16_MAX := by
    intro hc
    simp [get_xt_flags, fgetxattr, hxt hc]
  have hp : cfg.PTPAX = true → get_pt_flags f = (UINT16_MAX, none) := by
    intro hc
    obtain ⟨hclean, hnone⟩ := hpt hc
    rw [get_pt_flags_clean f hclean, lastPaxFlags, hnone]
  cases cfg with
  | ptpax =>
    rw [pax_getflags]
    simp only [hp rfl]
    decide
  | xtpax =>
    rw [pax_getflags]
    simp only [hx rfl]
    decide
  | both =>
    rw [pax_getflags]
    simp only [hp rfl, hx rfl]
    decide

theorem pax_getflags_absence_witness :
    ReportsAbsence .ptpax absentFile ∧
      pax_getflags .ptpax (some absentFile) = ⟨some ("", 65535), none⟩ :=
  ⟨by decide, pax_getflags_absence .ptpax absentFile (by decide)⟩

/-- C4, at the failing input: with both backends enabled, on `headerOnlyFile`
the header backend finds `0x10` and the attribute backend finds nothing; the
text returned is the encoding `P----` of the adopted value, the integer
returned is `UINT16_MAX`. -/
theorem pax_getflags_integer_clobbered :
    get_pt_flags headerOnlyFile = (0x10, none) ∧
    get_xt_flags headerOnlyFile = UINT16_MAX ∧
    pax_getflags .both (some headerOnlyFile) = ⟨some ("P----", 65535), none⟩ := by
  decide

/-- C10, at the failing input: on `unreadableTableFile` the fetch fails at
index 0; `get_pt_flags` sets the error and returns `UINT16_MAX`, and
`pax_getflags` does not return `NULL`: it returns the pair of the empty text
and 65535 built from that scan, with the error left set. -/
theorem pax_getflags_scan_failure_returns_result :
    gelf_getphdr unreadableTableFile 0 = none ∧
    get_pt_flags unreadableTableFile =
      (65535, some "get_pt_flags: gelf_getphdr() failed: could not get phdr.") ∧
    pax_getflags .ptpax (some unreadableTableFile) =
      ⟨some ("", 65535),
        some "get_pt_flags: gelf_getphdr() failed: could not get phdr."⟩ ∧
    (pax_getflags .ptpax (some unreadableTableFile)).ret ≠ none ∧
    (pax_getflags .ptpax none).ret = none := by
  decide

/-! ## Writing through the entry points: proofs -/

/-- C5, at the failing input: on `noXattrFile` the call `fsetxattr` returns
`-1`; `set_xt_flags` leaves the file as it was, and `pax_setbinflags` and
`pax_setstrflags` return `None` with no error set. -/
theorem set_xt_flags_failure_dropped :
    (fsetxattr noXattrFile (bin2string 0x8010 zeroed) 5).2 = -1 ∧
    set_xt_flags noXattrFile 0x8010 = noXattrFile ∧
    pax_setbinflags .xtpax (some noXattrFile) 0x8010 =
      (⟨some (), none⟩, some noXattrFile) ∧
    pax_setstrflags .xtpax (some noXattrFile) ['P', '-', '-', '-', 'r'] =
      (⟨some (), none⟩, some noXattrFile) ∧
    pax_getflags .xtpax (some noXattrFile) = ⟨some ("", 65535), none⟩ := by
  decide

/-- The scan of `set_pt_flags` sets no error when no fetch and no update
fails. -/
theorem set_pt_loop_clean (F : Nat) :
    ∀ (n i : Nat) (f : File), i + n = f.phdrs.length →
      (∀ k ∈ f.getphdr_bad, f.phdrs.length ≤ k) →
      (∀ k ∈ f.update_bad, f.phdrs.length ≤ k) →
      (set_pt_loop F n i f).2 = none := by
  intro n
  induction n with
  | zero => intro i f _ _ _; rfl
  | succ n ih =>
    intro i f hlen hg hu
    have hi : i < f.phdrs.length := by omega
    have hget : gelf_getphdr f i = some (f.phdrs[i]) := by
      have hnot : i ∉ f.getphdr_bad := fun hm => by have := hg i hm; omega
      simp [gelf_getphdr, hnot, List.getElem?_eq_getElem hi]
    rw [set_pt_loop, hget]
    simp only []
    split_ifs with hp
    · have hupd : gelf_update_phdr f i { f.phdrs[i] with p_flags := F } =
          some { f with phdrs := f.phdrs.set i { f.phdrs[i] with p_flags := F } } := by
        have hnot : i ∉ f.update_bad := fun hm => by have := hu i hm; omega
        have hnle : ¬ f.phdrs.length ≤ i := by omega
        simp [gelf_update_phdr, hnot, hnle]
      rw [hupd]
      exact ih (i + 1) _ (by simp; omega) (by simpa using hg) (by simpa using hu)
    · exact ih (i + 1) f (by omega) hg hu

/-- The header write path on a file on which nothing fails. -/
theorem set_pt_flags_clean (f : File) (F : Nat) (hc : ReadsClean f)
    (hu : ∀ k ∈ f.update_bad, f.phdrs.length ≤ k) :
    set_pt_flags f F = (elf_end f { f with phdrs := f.phdrs.map (patch F) }, none) := by
  obtain ⟨hv, hb, hk, hg⟩ := hc
  have herr : (set_pt_flags f F).2 = none := by
    simp only [set_pt_flags, hv, hb, hk, Bool.true_eq_false, if_false]
    exact set_pt_loop_clean F _ 0 f (by simp [elf_getphdrnum]) hg hu
  have := set_pt_flags_result f (set_pt_flags f F).1 F (Prod.ext rfl herr)
  exact Prod.ext this herr

/-- Patching keeps the marker entries in place and gives each the new flags. -/
theorem lastPax_map_patch (F : Nat) (l : List GElf_Phdr) :
    lastPax (l.map (patch F)) = (lastPax l).map (patch F) := by
  unfold lastPax
  rw [List.filter_map, List.getLast?_map]
  congr 2
  apply List.filter_congr
  intro p _
  simp only [Function.comp, patch]
  split_ifs <;> simp_all

/-- The last marker entry is a marker entry. -/
theorem lastPax_type {l : List GElf_Phdr} {p : GElf_Phdr} (h : lastPax l = some p) :
    p.p_type = PT_PAX_FLAGS := by
  have hm := List.mem_of_getLast?_eq_some h
  simpa using (List.mem_filter.mp hm).2

/-- The header read path after a clean header write. -/
theorem get_pt_flags_after_set (f g : File) (F : Nat) (hF : F < 65536)
    (hc : ReadsClean f) (hpax : lastPax f.phdrs ≠ none)
    (hv : g.elf_version_ok = f.elf_version_ok) (hb : g.elf_begin_ok = f.elf_begin_ok)
    (hk : g.kind_is_elf = f.kind_is_elf) (hbad : g.getphdr_bad = f.getphdr_bad)
    (hg : g.phdrs = f.phdrs.map (patch F)) :
    get_pt_flags g = (F, none) := by
  have hcg : ReadsClean g := by
    obtain ⟨h1, h2, h3, h4⟩ := hc
    refine ⟨by rw [hv, h1], by rw [hb, h2], by rw [hk, h3], ?_⟩
    rw [hbad, hg]
    simpa using h4
  rw [get_pt_flags_clean g hcg, lastPaxFlags, hg, lastPax_map_patch]
  cases hl : lastPax f.phdrs with
  | none => exact absurd hl hpax
  | some p =>
    have ht := lastPax_type hl
    simp [patch, ht, Nat.mod_eq_of_lt hF]

/-- The six bytes `bin2string` leaves in a zeroed buffer. -/
theorem bin2string_zeroed (F : Nat) :
    bin2string F zeroed =
      (bin2string F zeroed).take 5 ++ [NUL] ∧
      ((bin2string F zeroed).take 5).length = 5 ∧
      ∀ c ∈ (bin2string F zeroed).take 5, c ≠ NUL := by
  have hne : ∀ (a b : Prop) [Decidable a] [Decidable b] (x y : Char),
      x ≠ NUL → y ≠ NUL → (if a then x else if b then y else '-') ≠ NUL := by
    intro a b _ _ x y hx hy
    split_ifs
    · exact hx
    · exact hy
    · decide
  refine ⟨by simp [bin2string, zeroed, FLAGS_SIZE, List.replicate],
    by simp [bin2string, zeroed, FLAGS_SIZE, List.replicate], ?_⟩
  intro c hc
  simp only [bin2string, zeroed, FLAGS_SIZE, List.replicate, List.set, List.take,
    List.mem_cons, List.mem_nil_iff, or_false] at hc
  rcases hc with rfl | rfl | rfl | rfl | rfl
  · exact hne _ _ _ _ (by decide) (by decide)
  · exact hne _ _ _ _ (by decide) (by decide)
  · exact hne _ _ _ _ (by decide) (by decide)
  · exact hne _ _ _ _ (by decide) (by decide)
  · exact hne _ _ _ _ (by decide) (by decide)

/-- The length `strlen` reports for an encoded buffer is 5. -/
theorem strlen_bin2string (F : Nat) : strlen (bin2string F zeroed) = 5 := by
  obtain ⟨h1, h2, h3⟩ := bin2string_zeroed F
  rw [h1, strlen, List.takeWhile_append_of_pos]
  · simp [NUL, h2]
  · intro c hc
    simpa using h3 c hc

/-- The text of an encoded buffer is its first five bytes. -/
theorem cstring_bin2string (F : Nat) :
    cstring (bin2string F zeroed) = String.mk ((bin2string F zeroed).take 5) := by
  obtain ⟨h1, _, h3⟩ := bin2string_zeroed F
  rw [cstring]
  congr 1
  conv_lhs => rw [h1]
  rw [List.takeWhile_append_of_pos]
  · simp [NUL]
  · intro c hc
    simpa using h3 c hc

/-- The attribute write path when `fsetxattr` succeeds. -/
theorem set_xt_flags_ok (f : File) (F : Nat) (h : f.fsetxattr_fails = false) :
    set_xt_flags f F = { f with xattr := some ((bin2string F zeroed).take 5) } := by
  simp [set_xt_flags, fsetxattr, h, strlen_bin2string]

/-- The attribute read path on what the attribute write path stored. -/
theorem get_xt_flags_stored (g : File) (F : Nat)
    (h : g.xattr = some ((bin2string F zeroed).take 5)) :
    get_xt_flags g = string2bin (bin2string F zeroed) := by
  obtain ⟨h1, h2, _⟩ := bin2string_zeroed F
  have hd : List.drop 5 zeroed = [NUL] := by decide
  simp only [get_xt_flags, fgetxattr, h, h2, FLAGS_SIZE]
  simp only [show (5 : Nat) ≤ 6 from by omega, if_true, hd, ← h1]
  simp

/-- Converting a flag value to `int` and back to `uint16_t` gives it back. -/
theorem uint16_of_int (F : Nat) (hF : F < 65536) : ((F : Int) % 65536).toNat = F := by
  rw [Int.emod_eq_of_lt (by omega) (by omega)]
  exact Int.toNat_natCast F

end Pax
